import Mathlib

/-!
Verification of the quiz state machine and storage adapter of the
ro-traffic-rules repository.

The embedding follows `src/src/hooks/useQuiz.js` (the quiz reducer and the
operations `answerQuestion`, `nextQuestion`, `previousQuestion`, `resetQuiz`,
`loadQuestions`) and `src/src/hooks/useStorage.js` (the storage adapter with
its in-memory fallback).  JS numbers used as array indices are modelled as
`Int` (so the `-1` sentinel of `Array.prototype.indexOf` and negative index
accesses behave as in JS); question identifiers are `Nat`; the JS answer
mapping (object keyed by question id) is an association list whose entry
order is irrelevant to every property proved here.
-/

/-- Correct-answer field of a question.  Per the `@typedef` documentation in
useQuiz.js, `correct` is a single option string for a `single` (or `image`)
question and an array of option strings for a `multiple` question; the
constructor therefore also records the question kind consulted by the
`currentQuestion.type === 'multiple'` branch. -/
inductive QCorrect where
  | sing (c : String)
  | mult (cs : List String)
deriving DecidableEq

/-- A quiz question, after the Question typedef in useQuiz.js. -/
structure Question where
  id : Nat
  category : String
  text : String
  options : List String
  correct : QCorrect
  explanation : Option String := none
  image : Option String := none
deriving DecidableEq

/-- A submitted answer: a single option index or an array of indices,
mirroring the `number|Array` argument of `answerQuestion`. -/
inductive Answer where
  | idx (i : Int)
  | idxs (l : List Int)
deriving DecidableEq

/-- JS `Array.isArray(answer) ? answer : [answer]` from answerQuestion. -/
def answerToList : Answer → List Int
  | Answer.idx i => [i]
  | Answer.idxs l => l

/-- JS `Array.prototype.indexOf` on a string array: first index of `c` in
`opts`, or `-1` when absent. -/
def jsIndexOf (opts : List String) (c : String) : Int :=
  match opts with
  | [] => -1
  | o :: rest =>
    if o = c then 0
    else
      let r := jsIndexOf rest c
      if r = -1 then -1 else r + 1

/-- Correctness check of `answerQuestion` (useQuiz.js lines 222-239): for
`multiple` questions the submitted list must have the same length as
`correct` and contain `options.indexOf(c)` for every correct string `c`;
otherwise the answer must equal `options.indexOf(correct)`. -/
def isCorrectAnswer (q : Question) (a : Answer) : Bool :=
  match q.correct with
  | QCorrect.mult cs =>
      let userAnswers := answerToList a
      cs.length == userAnswers.length &&
        cs.all (fun c => userAnswers.contains (jsIndexOf q.options c))
  | QCorrect.sing c =>
      match a with
      | Answer.idx i => i == jsIndexOf q.options c
      | Answer.idxs _ => false

/-- Quiz reducer state (the `useReducer` record in useQuiz.js). -/
structure QuizState where
  questions : List Question
  currentQuestionIndex : Int
  answers : List (Nat × Answer)
  score : Nat
  loading : Bool
  error : Option String
  retryCount : Nat
deriving DecidableEq

/-- The persisted `quizProgress` record written by answerQuestion /
nextQuestion / previousQuestion. -/
structure Progress where
  currentQuestionIndex : Int
  answers : List (Nat × Answer)
  score : Nat
deriving DecidableEq

/-- Full model state: the reducer state, the single `quizProgress` storage
key (`none` when absent), and the `hasLoadedRef` guard. -/
structure AppState where
  quiz : QuizState
  snapshot : Option Progress
  hasLoaded : Bool
deriving DecidableEq

/-- Initial `useReducer` state. -/
def initialQuizState : QuizState :=
  { questions := [], currentQuestionIndex := 0, answers := [], score := 0,
    loading := true, error := none, retryCount := 0 }

/-- A fresh session with empty storage. -/
def initApp : AppState :=
  { quiz := initialQuizState, snapshot := none, hasLoaded := false }

/-- JS `state.questions[i]`: `undefined` (here `none`) outside bounds,
including negative indices. -/
def getQ (qs : List Question) (i : Int) : Option Question :=
  if 0 ≤ i then qs.get? i.toNat else none

/-- JS object spread `{...m, [i]: a}` on the answer mapping: the entry for
`i` is overwritten or added (entry order is irrelevant to the properties
proved below). -/
def setAnswer (m : List (Nat × Answer)) (i : Nat) (a : Answer) :
    List (Nat × Answer) :=
  (i, a) :: m.filter (fun p => p.1 != i)

/-- Whether a recorded answer entry is correct for the question with the
matching id. -/
def answerIsCorrect (qs : List Question) (p : Nat × Answer) : Bool :=
  match qs.find? (fun q => q.id == p.1) with
  | some q => isCorrectAnswer q p.2
  | none => false

/-- Number of entries of the answer mapping whose recorded answer is correct
relative to the corresponding question. -/
def correctCount (qs : List Question) (m : List (Nat × Answer)) : Nat :=
  (m.filter (answerIsCorrect qs)).length

/-- Result of one load attempt: a validated question list (the fetch, parse
and shape checks of `loadQuestions` all passed), or a failure carrying the
user-facing message (the `getErrorMessage` formatting is abstracted into the
stored message, which no proved property inspects). -/
inductive LoadOutcome where
  | success (qs : List Question)
  | failure (msg : String)
deriving DecidableEq

/-- The empty progress record `{}` produced by `storage.getItem || {}` in
the navigation handlers (missing fields read back as falsy/empty). -/
def defaultProgress : Progress :=
  { currentQuestionIndex := 0, answers := [], score := 0 }

/-- `loadQuestions(isRetry)` from useQuiz.js lines 124-205: the
`hasLoadedRef` guard, then on success the dispatch sequence SET_LOADING
true, SET_QUESTIONS, optional SET_CURRENT_QUESTION / RESTORE_ANSWERS from
the saved snapshot, SET_RETRY_COUNT 0; on failure SET_LOADING true,
SET_ERROR, SET_RETRY_COUNT (retryCount + 1).
`savedProgress.currentQuestionIndex || 0` is the identity on the stored
index since only `0` is falsy among stored index values. -/
def loadQuestions (app : AppState) (isRetry : Bool) (outcome : LoadOutcome) :
    AppState :=
  if app.hasLoaded && !isRetry then app
  else
    let app1 := if !isRetry then { app with hasLoaded := true } else app
    match outcome with
    | LoadOutcome.success qs =>
      let q1 := { app1.quiz with loading := true }
      let q2 := { q1 with questions := qs, loading := false,
                          error := (none : Option String) }
      let q3 :=
        match app1.snapshot with
        | some p => { q2 with currentQuestionIndex := p.currentQuestionIndex,
                              answers := p.answers }
        | none => q2
      { app1 with quiz := { q3 with retryCount := 0 } }
    | LoadOutcome.failure msg =>
      let q1 := { app1.quiz with loading := true }
      { app1 with
          quiz := { q1 with error := some msg, loading := false,
                            retryCount := q1.retryCount + 1 } }

/-- `answerQuestion(answer)` from useQuiz.js lines 218-265: no-op when the
current question is `undefined`; otherwise dispatch ANSWER_QUESTION (record
the answer, increment score iff correct) and write the progress snapshot
computed from the same closure state. -/
def answerQuestion (app : AppState) (a : Answer) : AppState :=
  match getQ app.quiz.questions app.quiz.currentQuestionIndex with
  | none => app
  | some q =>
    let isCorrect := isCorrectAnswer q a
    let newAnswers := setAnswer app.quiz.answers q.id a
    let newScore := if isCorrect then app.quiz.score + 1 else app.quiz.score
    { app with
        quiz := { app.quiz with answers := newAnswers, score := newScore },
        snapshot := some { currentQuestionIndex := app.quiz.currentQuestionIndex,
                           answers := newAnswers, score := newScore } }

/-- `nextQuestion()` from useQuiz.js lines 270-283: advance only while
`currentQuestionIndex < questions.length - 1`, and update the stored
snapshot's index (spreading over `{}` when no snapshot exists). -/
def nextQuestion (app : AppState) : AppState :=
  if app.quiz.currentQuestionIndex < (app.quiz.questions.length : Int) - 1 then
    let newIndex := app.quiz.currentQuestionIndex + 1
    { app with
        quiz := { app.quiz with currentQuestionIndex := newIndex },
        snapshot := some { (app.snapshot.getD defaultProgress) with
                            currentQuestionIndex := newIndex } }
  else app

/-- `previousQuestion()` from useQuiz.js lines 288-301: retreat only while
`currentQuestionIndex > 0`, updating the stored snapshot's index. -/
def previousQuestion (app : AppState) : AppState :=
  if 0 < app.quiz.currentQuestionIndex then
    let newIndex := app.quiz.currentQuestionIndex - 1
    { app with
        quiz := { app.quiz with currentQuestionIndex := newIndex },
        snapshot := some { (app.snapshot.getD defaultProgress) with
                            currentQuestionIndex := newIndex } }
  else app

/-- `resetQuiz()` from useQuiz.js lines 306-317: dispatch RESET_QUIZ
(position 0, empty answers, score 0, error null, retryCount 0; questions
kept), remove the `quizProgress` key, clear `hasLoadedRef`. -/
def resetQuiz (app : AppState) : AppState :=
  { app with
      quiz := { app.quiz with currentQuestionIndex := 0, answers := [],
                              score := 0, error := none, retryCount := 0 },
      snapshot := none,
      hasLoaded := false }

/-- The public operations of the quiz hook. -/
inductive QOp where
  | load (isRetry : Bool) (outcome : LoadOutcome)
  | answer (a : Answer)
  | next
  | prev
  | reset
deriving DecidableEq

/-- One public operation. -/
def step (app : AppState) : QOp → AppState
  | QOp.load r out => loadQuestions app r out
  | QOp.answer a => answerQuestion app a
  | QOp.next => nextQuestion app
  | QOp.prev => previousQuestion app
  | QOp.reset => resetQuiz app

/-- A sequence of public operations. -/
def run (app : AppState) : List QOp → AppState
  | [] => app
  | op :: ops => run (step app op) ops

/-- State of the `useStorage` adapter: the availability flag, the in-memory
fallback map, and the content of the underlying `localStorage` (values
abstracted as strings; the `JSON.stringify`/`JSON.parse` round trip through
`localStorage` is the identity on them). -/
structure StorageState where
  isStorageAvailable : Bool
  fallbackStorage : List (String × String)
  localStore : List (String × String)
deriving DecidableEq

/-- Behaviour of one underlying `localStorage.setItem` call: it either
succeeds or throws an error with the given `name`. -/
inductive WriteOutcome where
  | ok
  | throwErr (name : String)
deriving DecidableEq

/-- Overwrite-or-add on a string key-value map. -/
def storeSet (m : List (String × String)) (k v : String) :
    List (String × String) :=
  (k, v) :: m.filter (fun p => p.1 != k)

/-- `setItem` from useStorage.js lines 54-76: write through to
`localStorage` when available; on a thrown `QuotaExceededError` flip to the
fallback, retry the write there and still report success; on any other
thrown error report failure and change nothing; when unavailable write to
the fallback map. -/
def setItem (s : StorageState) (w : WriteOutcome) (key value : String) :
    Bool × StorageState :=
  if s.isStorageAvailable then
    match w with
    | WriteOutcome.ok =>
        (true, { s with localStore := storeSet s.localStore key value })
    | WriteOutcome.throwErr n =>
        if n = "QuotaExceededError" then
          (true, { s with isStorageAvailable := false,
                          fallbackStorage := storeSet s.fallbackStorage key value })
        else (false, s)
  else
    (true, { s with fallbackStorage := storeSet s.fallbackStorage key value })

/-- `getItem` from useStorage.js lines 32-46: read `localStorage` when
available, else the fallback map, returning the default when absent. -/
def getItem (s : StorageState) (key dflt : String) : String :=
  if s.isStorageAvailable then
    match s.localStore.lookup key with
    | some v => v
    | none => dflt
  else
    match s.fallbackStorage.lookup key with
    | some v => v
    | none => dflt

/-- `removeItem` from useStorage.js lines 83-99. -/
def removeItem (s : StorageState) (key : String) : Bool × StorageState :=
  if s.isStorageAvailable then
    (true, { s with localStore := s.localStore.filter (fun p => p.1 != key) })
  else
    (true, { s with fallbackStorage := s.fallbackStorage.filter (fun p => p.1 != key) })

/-- `clear` from useStorage.js lines 105-117. -/
def clearStorage (s : StorageState) : Bool × StorageState :=
  if s.isStorageAvailable then (true, { s with localStore := [] })
  else (true, { s with fallbackStorage := [] })

/-- The state-mutating storage operations (`getItem` is read-only). -/
inductive SOp where
  | setOp (w : WriteOutcome) (key value : String)
  | removeOp (key : String)
  | clearOp
deriving DecidableEq

/-- Apply one storage operation, keeping the resulting state. -/
def applySOp (s : StorageState) : SOp → StorageState
  | SOp.setOp w k v => (setItem s w k v).2
  | SOp.removeOp k => (removeItem s k).2
  | SOp.clearOp => (clearStorage s).2

/-- Apply a sequence of storage operations. -/
def runStorage (s : StorageState) : List SOp → StorageState
  | [] => s
  | op :: ops => runStorage (applySOp s op) ops


lemma applySOp_unavailable {s : StorageState} (h : s.isStorageAvailable = false)
    (op : SOp) : (applySOp s op).isStorageAvailable = false := by
  cases op with
  | setOp w k v => simp [applySOp, setItem, h]
  | removeOp k => simp [applySOp, removeItem, h]
  | clearOp => simp [applySOp, clearStorage, h]

lemma runStorage_unavailable {s : StorageState}
    (h : s.isStorageAvailable = false) :
    ∀ ops : List SOp, (runStorage s ops).isStorageAvailable = false := by
  intro ops
  induction ops generalizing s with
  | nil => exact h
  | cons op ops ih => exact ih (applySOp_unavailable h op)

/-- C7: `resetQuiz` always yields position 0, score 0, empty answers, no
error, retry counter 0, removes the persisted snapshot, and leaves the
loaded question list unchanged. -/
theorem c7_theorem (app : AppState) :
    (step app QOp.reset).quiz.currentQuestionIndex = 0 ∧
    (step app QOp.reset).quiz.score = 0 ∧
    (step app QOp.reset).quiz.answers = [] ∧
    (step app QOp.reset).quiz.error = none ∧
    (step app QOp.reset).quiz.retryCount = 0 ∧
    (step app QOp.reset).snapshot = none ∧
    (step app QOp.reset).quiz.questions = app.quiz.questions :=
  ⟨rfl, rfl, rfl, rfl, rfl, rfl, rfl⟩

/-- C9: a quota-exceeded write failure while the durable store is marked
available migrates to the in-memory fallback, retries the write there,
still returns `true`, and leaves the adapter on the fallback (with
`isStorageAvailable = false`) for every subsequent operation. -/
theorem c9_theorem (s : StorageState) (k v : String)
    (h : s.isStorageAvailable = true) :
    (setItem s (WriteOutcome.throwErr "QuotaExceededError") k v).1 = true ∧
    (setItem s (WriteOutcome.throwErr "QuotaExceededError") k v).2.isStorageAvailable = false ∧
    (∀ d : String,
      getItem (setItem s (WriteOutcome.throwErr "QuotaExceededError") k v).2 k d = v) ∧
    (∀ ops : List SOp,
      (runStorage (setItem s (WriteOutcome.throwErr "QuotaExceededError") k v).2 ops).isStorageAvailable = false) := by
  refine ⟨?_, ?_, ?_, ?_⟩
  · simp [setItem, h]
  · simp [setItem, h]
  · intro d
    simp [setItem, h, getItem, storeSet, List.lookup]
  · intro ops
    exact runStorage_unavailable (by simp [setItem, h]) ops

/-- C9 witness at a concrete state. -/
theorem c9_witness :
    (setItem ⟨true, [], [("quizProgress", "old")]⟩
        (WriteOutcome.throwErr "QuotaExceededError") "quizProgress" "data").1 = true ∧
    (setItem ⟨true, [], [("quizProgress", "old")]⟩
        (WriteOutcome.throwErr "QuotaExceededError") "quizProgress" "data").2.isStorageAvailable = false ∧
    getItem (setItem ⟨true, [], [("quizProgress", "old")]⟩
        (WriteOutcome.throwErr "QuotaExceededError") "quizProgress" "data").2 "quizProgress" "d" = "data" ∧
    (runStorage (setItem ⟨true, [], [("quizProgress", "old")]⟩
        (WriteOutcome.throwErr "QuotaExceededError") "quizProgress" "data").2
      [SOp.setOp WriteOutcome.ok "quizProgress" "more"]).isStorageAvailable = false := by
  have h := c9_theorem ⟨true, [], [("quizProgress", "old")]⟩ "quizProgress" "data" rfl
  exact ⟨h.1, h.2.1, h.2.2.1 "d", h.2.2.2 [SOp.setOp WriteOutcome.ok "quizProgress" "more"]⟩

/-- C10: a thrown write error whose name is not `QuotaExceededError` while
the store is available makes `setItem` return `false` and leaves the whole
adapter state unchanged (no fallback migration, availability still true). -/
theorem c10_theorem (s : StorageState) (k v n : String)
    (h : s.isStorageAvailable = true) (hn : n ≠ "QuotaExceededError") :
    setItem s (WriteOutcome.throwErr n) k v = (false, s) := by
  simp [setItem, h, hn]

/-- C10 witness at a concrete state. -/
theorem c10_witness :
    setItem ⟨true, [("a", "b")], []⟩ (WriteOutcome.throwErr "SecurityError") "k" "v" =
      (false, ⟨true, [("a", "b")], []⟩) :=
  c10_theorem ⟨true, [("a", "b")], []⟩ "k" "v" "SecurityError" rfl (by decide)

lemma nextQuestion_idx (app : AppState) :
    (nextQuestion app).quiz.currentQuestionIndex =
      if app.quiz.currentQuestionIndex < (app.quiz.questions.length : Int) - 1
      then app.quiz.currentQuestionIndex + 1
      else app.quiz.currentQuestionIndex := by
  unfold nextQuestion; split <;> rfl

lemma nextQuestion_questions (app : AppState) :
    (nextQuestion app).quiz.questions = app.quiz.questions := by
  unfold nextQuestion; split <;> rfl

lemma nextQuestion_answers (app : AppState) :
    (nextQuestion app).quiz.answers = app.quiz.answers := by
  unfold nextQuestion; split <;> rfl

lemma nextQuestion_score (app : AppState) :
    (nextQuestion app).quiz.score = app.quiz.score := by
  unfold nextQuestion; split <;> rfl

lemma previousQuestion_idx (app : AppState) :
    (previousQuestion app).quiz.currentQuestionIndex =
      if 0 < app.quiz.currentQuestionIndex
      then app.quiz.currentQuestionIndex - 1
      else app.quiz.currentQuestionIndex := by
  unfold previousQuestion; split <;> rfl

lemma previousQuestion_questions (app : AppState) :
    (previousQuestion app).quiz.questions = app.quiz.questions := by
  unfold previousQuestion; split <;> rfl

lemma previousQuestion_answers (app : AppState) :
    (previousQuestion app).quiz.answers = app.quiz.answers := by
  unfold previousQuestion; split <;> rfl

lemma previousQuestion_score (app : AppState) :
    (previousQuestion app).quiz.score = app.quiz.score := by
  unfold previousQuestion; split <;> rfl

/-- C6: from any state with `0 ≤ position ≤ length`, no sequence of
advance (`nextQuestion`) and retreat (`previousQuestion`) calls moves the
position outside `[0, length]`. -/
theorem c6_theorem (app : AppState) (ops : List QOp)
    (hnav : ∀ op ∈ ops, op = QOp.next ∨ op = QOp.prev)
    (h0 : 0 ≤ app.quiz.currentQuestionIndex)
    (h1 : app.quiz.currentQuestionIndex ≤ (app.quiz.questions.length : Int)) :
    0 ≤ (run app ops).quiz.currentQuestionIndex ∧
      (run app ops).quiz.currentQuestionIndex ≤
        ((run app ops).quiz.questions.length : Int) := by
  induction ops generalizing app with
  | nil => exact ⟨h0, h1⟩
  | cons op ops ih =>
    have hop := hnav op (List.mem_cons_self op ops)
    have hrest : ∀ o ∈ ops, o = QOp.next ∨ o = QOp.prev :=
      fun o ho => hnav o (List.mem_cons_of_mem op ho)
    rcases hop with rfl | rfl
    · refine ih (step app QOp.next) hrest ?_ ?_
      · show 0 ≤ (nextQuestion app).quiz.currentQuestionIndex
        rw [nextQuestion_idx]; split <;> omega
      · show (nextQuestion app).quiz.currentQuestionIndex ≤
          ((nextQuestion app).quiz.questions.length : Int)
        rw [nextQuestion_idx, nextQuestion_questions]; split <;> omega
    · refine ih (step app QOp.prev) hrest ?_ ?_
      · show 0 ≤ (previousQuestion app).quiz.currentQuestionIndex
        rw [previousQuestion_idx]; split <;> omega
      · show (previousQuestion app).quiz.currentQuestionIndex ≤
          ((previousQuestion app).quiz.questions.length : Int)
        rw [previousQuestion_idx, previousQuestion_questions]; split <;> omega

/-- C6 witness at a concrete state and operation sequence. -/
theorem c6_witness :
    0 ≤ (run initApp [QOp.next, QOp.prev]).quiz.currentQuestionIndex ∧
      (run initApp [QOp.next, QOp.prev]).quiz.currentQuestionIndex ≤
        ((run initApp [QOp.next, QOp.prev]).quiz.questions.length : Int) :=
  c6_theorem initApp [QOp.next, QOp.prev] (by decide) (by decide) (by decide)

/-- A `single` question used in the concrete scenarios: correct option "a"
(index 0). -/
def qS1 : Question :=
  { id := 1, category := "Cat1", text := "t1", options := ["a", "b", "c"],
    correct := QCorrect.sing "a" }

/-- A second `single` question: correct option "a" (index 0). -/
def qS2 : Question :=
  { id := 2, category := "Cat2", text := "t2", options := ["a", "b"],
    correct := QCorrect.sing "a" }

/-- A `multiple` question: correct options "x" and "y" (indices 0 and 1). -/
def qM3 : Question :=
  { id := 3, category := "Cat1", text := "t3", options := ["x", "y", "z"],
    correct := QCorrect.mult ["x", "y"] }

/-- The end-to-end scenario of the spec: load three questions, answer the
first correctly, the second incorrectly, the third with the exact correct
subset, advancing after each answer. -/
def endToEndOps : List QOp :=
  [QOp.load false (LoadOutcome.success [qS1, qS2, qM3]),
   QOp.answer (Answer.idx 0), QOp.next,
   QOp.answer (Answer.idx 1), QOp.next,
   QOp.answer (Answer.idxs [0, 1]), QOp.next]

/-- C3 counterexample: in the end-to-end scenario the three advance calls do
not reach position 3 — `nextQuestion` only advances while
`currentQuestionIndex < questions.length - 1`, so the third call is a
no-op. -/
theorem c3_counterexample :
    (run initApp endToEndOps).quiz.currentQuestionIndex ≠ 3 := by decide

/-- C3 (amended): the scenario ends at position 2 (the last question index)
with score 2, and `nextQuestion` leaves the position unchanged whenever it
is already at or beyond `length - 1`, so the position value `length` is not
reachable by advancing. -/
theorem c3_theorem :
    (run initApp endToEndOps).quiz.currentQuestionIndex = 2 ∧
    (run initApp endToEndOps).quiz.score = 2 ∧
    ∀ app : AppState,
      (app.quiz.questions.length : Int) - 1 ≤ app.quiz.currentQuestionIndex →
      (step app QOp.next).quiz.currentQuestionIndex =
        app.quiz.currentQuestionIndex := by
  refine ⟨by decide, by decide, ?_⟩
  intro app h
  show (nextQuestion app).quiz.currentQuestionIndex = _
  rw [nextQuestion_idx, if_neg (by omega)]

/-- C3 witness: the clamping clause of the amended claim applied at the
final state of the scenario. -/
theorem c3_witness :
    (step (run initApp endToEndOps) QOp.next).quiz.currentQuestionIndex =
      (run initApp endToEndOps).quiz.currentQuestionIndex :=
  c3_theorem.2.2 (run initApp endToEndOps) (by decide)

/-- The state after loading one question and answering it once (correctly). -/
def answeredOnce : AppState :=
  run initApp [QOp.load false (LoadOutcome.success [qS1]),
               QOp.answer (Answer.idx 0)]

/-- C4 counterexample: `answerQuestion` is accepted again for a question
that has already been answered in this pass — the second identical call
changes the state (the score is incremented once more). -/
theorem c4_counterexample :
    (step answeredOnce (QOp.answer (Answer.idx 0))).quiz.score ≠
      answeredOnce.quiz.score := by decide

/-- C4 (amended): `answerQuestion` is a complete no-op (every state field
unchanged) when no current question exists, and is accepted whenever the
current question exists — even when that question has already been answered,
in which case the recorded answer is overwritten. -/
theorem c4_theorem :
    (∀ (app : AppState) (a : Answer),
        getQ app.quiz.questions app.quiz.currentQuestionIndex = none →
        step app (QOp.answer a) = app) ∧
    (∀ (app : AppState) (a : Answer) (q : Question),
        getQ app.quiz.questions app.quiz.currentQuestionIndex = some q →
        ((step app (QOp.answer a)).quiz.answers).lookup q.id = some a) := by
  constructor
  · intro app a h
    show answerQuestion app a = app
    unfold answerQuestion
    rw [h]
  · intro app a q h
    show ((answerQuestion app a).quiz.answers).lookup q.id = some a
    unfold answerQuestion
    rw [h]
    simp [setAnswer, List.lookup]

/-- C4 witness: the no-op clause at the initial state (no questions) and the
acceptance clause after loading one question. -/
theorem c4_witness :
    step initApp (QOp.answer (Answer.idx 0)) = initApp ∧
    ((step (step initApp (QOp.load false (LoadOutcome.success [qS1])))
        (QOp.answer (Answer.idx 1))).quiz.answers).lookup qS1.id =
      some (Answer.idx 1) :=
  ⟨c4_theorem.1 initApp (Answer.idx 0) (by decide),
   c4_theorem.2 (step initApp (QOp.load false (LoadOutcome.success [qS1])))
     (Answer.idx 1) qS1 (by decide)⟩

/-- A fresh session whose storage holds a snapshot recording a correct
answer to question 1 and a stored score of 1. -/
def sessionWithSnapshot : AppState :=
  { quiz := initialQuizState,
    snapshot := some { currentQuestionIndex := 0,
                       answers := [(1, Answer.idx 0)], score := 1 },
    hasLoaded := false }

/-- C5 counterexample: after a successful load that restores the snapshot,
the score is not the count of correct answers recomputed from the restored
mapping — RESTORE_ANSWERS only replaces the answer mapping, the score stays
at its pre-load value 0 while the restored mapping holds one correct
answer. -/
theorem c5_counterexample :
    (step sessionWithSnapshot (QOp.load false (LoadOutcome.success [qS1]))).quiz.score ≠
      correctCount
        (step sessionWithSnapshot (QOp.load false (LoadOutcome.success [qS1]))).quiz.questions
        (step sessionWithSnapshot (QOp.load false (LoadOutcome.success [qS1]))).quiz.answers := by
  decide

/-- C5 (amended): a successful load that finds a persisted snapshot restores
the saved position and answer mapping, but leaves the score field unchanged
(neither recomputed from the restored mapping nor read from the snapshot). -/
theorem c5_theorem (app : AppState) (r : Bool) (qs : List Question)
    (p : Progress) (hs : app.snapshot = some p)
    (hg : app.hasLoaded = false ∨ r = true) :
    (step app (QOp.load r (LoadOutcome.success qs))).quiz.currentQuestionIndex =
        p.currentQuestionIndex ∧
    (step app (QOp.load r (LoadOutcome.success qs))).quiz.answers = p.answers ∧
    (step app (QOp.load r (LoadOutcome.success qs))).quiz.score =
        app.quiz.score := by
  show (loadQuestions app r (LoadOutcome.success qs)).quiz.currentQuestionIndex = _ ∧
    (loadQuestions app r (LoadOutcome.success qs)).quiz.answers = _ ∧
    (loadQuestions app r (LoadOutcome.success qs)).quiz.score = _
  unfold loadQuestions
  rcases hg with h | h
  · cases r <;> simp [h, hs]
  · subst h
    simp [hs]

/-- C5 witness: the amended behaviour at the concrete snapshot session. -/
theorem c5_witness :
    (step sessionWithSnapshot (QOp.load false (LoadOutcome.success [qS1]))).quiz.currentQuestionIndex = 0 ∧
    (step sessionWithSnapshot (QOp.load false (LoadOutcome.success [qS1]))).quiz.answers =
      [(1, Answer.idx 0)] ∧
    (step sessionWithSnapshot (QOp.load false (LoadOutcome.success [qS1]))).quiz.score =
      sessionWithSnapshot.quiz.score :=
  c5_theorem sessionWithSnapshot false [qS1]
    { currentQuestionIndex := 0, answers := [(1, Answer.idx 0)], score := 1 }
    rfl (Or.inl rfl)

/-- C8: starting from retry counter 0 in a not-yet-loaded session, a first
load failure sets `retryCount = 1`, a second failed retry sets
`retryCount = 2`, and a subsequently succeeding retry resets
`retryCount = 0` and clears the error field. -/
theorem c8_theorem (app : AppState) (m1 m2 : String) (qs : List Question)
    (h0 : app.quiz.retryCount = 0) (hL : app.hasLoaded = false) :
    (step app (QOp.load false (LoadOutcome.failure m1))).quiz.retryCount = 1 ∧
    (step (step app (QOp.load false (LoadOutcome.failure m1)))
        (QOp.load true (LoadOutcome.failure m2))).quiz.retryCount = 2 ∧
    (step (step (step app (QOp.load false (LoadOutcome.failure m1)))
          (QOp.load true (LoadOutcome.failure m2)))
        (QOp.load true (LoadOutcome.success qs))).quiz.retryCount = 0 ∧
    (step (step (step app (QOp.load false (LoadOutcome.failure m1)))
          (QOp.load true (LoadOutcome.failure m2)))
        (QOp.load true (LoadOutcome.success qs))).quiz.error = none := by
  show (loadQuestions app false (LoadOutcome.failure m1)).quiz.retryCount = 1 ∧
    (loadQuestions (loadQuestions app false (LoadOutcome.failure m1))
        true (LoadOutcome.failure m2)).quiz.retryCount = 2 ∧
    (loadQuestions (loadQuestions (loadQuestions app false (LoadOutcome.failure m1))
          true (LoadOutcome.failure m2))
        true (LoadOutcome.success qs)).quiz.retryCount = 0 ∧
    (loadQuestions (loadQuestions (loadQuestions app false (LoadOutcome.failure m1))
          true (LoadOutcome.failure m2))
        true (LoadOutcome.success qs)).quiz.error = none
  unfold loadQuestions
  simp [hL, h0]
  cases happ : app.snapshot <;> simp [happ]

/-- C8 witness at the initial state. -/
theorem c8_witness :
    (step initApp (QOp.load false (LoadOutcome.failure "e1"))).quiz.retryCount = 1 ∧
    (step (step initApp (QOp.load false (LoadOutcome.failure "e1")))
        (QOp.load true (LoadOutcome.failure "e2"))).quiz.retryCount = 2 ∧
    (step (step (step initApp (QOp.load false (LoadOutcome.failure "e1")))
          (QOp.load true (LoadOutcome.failure "e2")))
        (QOp.load true (LoadOutcome.success [qS1]))).quiz.retryCount = 0 ∧
    (step (step (step initApp (QOp.load false (LoadOutcome.failure "e1")))
          (QOp.load true (LoadOutcome.failure "e2")))
        (QOp.load true (LoadOutcome.success [qS1]))).quiz.error = none :=
  c8_theorem initApp "e1" "e2" [qS1] rfl rfl

lemma jsIndexOf_spec {opts : List String} {c : String} (h : c ∈ opts) :
    0 ≤ jsIndexOf opts c ∧ opts.get? (jsIndexOf opts c).toNat = some c := by
  induction opts with
  | nil => cases h
  | cons o rest ih =>
    by_cases hoc : o = c
    · subst hoc
      refine ⟨by simp [jsIndexOf], by simp [jsIndexOf]⟩
    · have hc : c ∈ rest := by
        rcases List.mem_cons.mp h with h1 | h1
        · exact absurd h1.symm hoc
        · exact h1
      obtain ⟨h1, h2⟩ := ih hc
      have hne : jsIndexOf rest c ≠ -1 := by omega
      constructor
      · simp only [jsIndexOf, if_neg hoc, if_neg hne]
        omega
      · simp only [jsIndexOf, if_neg hoc, if_neg hne]
        have ht : (jsIndexOf rest c + 1).toNat = (jsIndexOf rest c).toNat + 1 := by
          omega
        rw [ht, List.get?_cons_succ]
        exact h2

lemma jsIndexOf_injOn {opts : List String} {c1 c2 : String}
    (h1 : c1 ∈ opts) (h2 : c2 ∈ opts)
    (he : jsIndexOf opts c1 = jsIndexOf opts c2) : c1 = c2 := by
  have s1 := (jsIndexOf_spec h1).2
  have s2 := (jsIndexOf_spec h2).2
  rw [he] at s1
  rw [s2] at s1
  exact (Option.some.inj s1).symm

/-- C2: for a `multiple` question whose correct strings are distinct and all
present among the options (the data-model invariant), a submitted
duplicate-free index list is scored correct iff, as a set, it equals the set
of indices of the correct strings within the options — same size, same
members, no extra and no missing selections. -/
theorem c2_theorem (qid : Nat) (cat txt : String) (ex im : Option String)
    (opts cs : List String) (S : List Int)
    (hnd : cs.Nodup) (hmem : ∀ c ∈ cs, c ∈ opts) (hS : S.Nodup) :
    isCorrectAnswer ⟨qid, cat, txt, opts, QCorrect.mult cs, ex, im⟩
        (Answer.idxs S) = true ↔
      S.toFinset = (cs.map (jsIndexOf opts)).toFinset := by
  have hmapnd : (cs.map (jsIndexOf opts)).Nodup :=
    hnd.map_on fun x hx y hy hxy =>
      jsIndexOf_injOn (hmem x hx) (hmem y hy) hxy
  simp only [isCorrectAnswer, answerToList, Bool.and_eq_true, beq_iff_eq,
    List.all_eq_true, List.contains, List.elem_iff]
  constructor
  · rintro ⟨hlen, hall⟩
    have hsub : (cs.map (jsIndexOf opts)).toFinset ⊆ S.toFinset := by
      intro x hx
      rw [List.mem_toFinset, List.mem_map] at hx
      obtain ⟨c, hc, rfl⟩ := hx
      rw [List.mem_toFinset]
      exact hall c hc
    have hcard : S.toFinset.card ≤ (cs.map (jsIndexOf opts)).toFinset.card := by
      rw [List.toFinset_card_of_nodup hS,
        List.toFinset_card_of_nodup hmapnd, List.length_map]
      omega
    exact (Finset.eq_of_subset_of_card_le hsub hcard).symm
  · intro he
    constructor
    · have hcalc : S.length = cs.length := by
        calc S.length = S.toFinset.card := (List.toFinset_card_of_nodup hS).symm
          _ = (cs.map (jsIndexOf opts)).toFinset.card := by rw [he]
          _ = (cs.map (jsIndexOf opts)).length :=
              List.toFinset_card_of_nodup hmapnd
          _ = cs.length := List.length_map cs (jsIndexOf opts)
      omega
    · intro c hc
      have hin : jsIndexOf opts c ∈ (cs.map (jsIndexOf opts)).toFinset := by
        rw [List.mem_toFinset]
        exact List.mem_map_of_mem (jsIndexOf opts) hc
      rw [← he, List.mem_toFinset] at hin
      exact hin

/-- C2 witness: options `[A,B,C,D]`, correct `[A,B]`, submitted set
`{0, 1}`. -/
theorem c2_witness :
    isCorrectAnswer ⟨9, "cat", "mq", ["A", "B", "C", "D"],
        QCorrect.mult ["A", "B"], none, none⟩ (Answer.idxs [0, 1]) = true ↔
      ([0, 1] : List Int).toFinset =
        (["A", "B"].map (jsIndexOf ["A", "B", "C", "D"])).toFinset :=
  c2_theorem 9 "cat" "mq" none none ["A", "B", "C", "D"] ["A", "B"] [0, 1]
    (by decide) (by decide) (by decide)

/-- Validity side condition on a load outcome for the score invariant:
successfully admitted question lists carry pairwise-distinct identifiers
(the data-model invariant of the spec). -/
def outcomeNodupIds : LoadOutcome → Prop
  | LoadOutcome.success qs => (qs.map Question.id).Nodup
  | LoadOutcome.failure _ => True

/-- States reachable from a fresh session by the public operations under
the spec's usage discipline: loads admit identifier-distinct question lists
and happen while no answer is recorded and no snapshot is present, and
`answerQuestion` is only invoked for a current question that has not yet
been answered in this pass. -/
inductive ReachableNR : AppState → Prop where
  | init : ReachableNR initApp
  | load {app : AppState} (r : Bool) (out : LoadOutcome) :
      ReachableNR app → app.snapshot = none → app.quiz.answers = [] →
      outcomeNodupIds out → ReachableNR (step app (QOp.load r out))
  | answer {app : AppState} (a : Answer) (q : Question) :
      ReachableNR app →
      getQ app.quiz.questions app.quiz.currentQuestionIndex = some q →
      app.quiz.answers.lookup q.id = none →
      ReachableNR (step app (QOp.answer a))
  | next {app : AppState} : ReachableNR app → ReachableNR (step app QOp.next)
  | prev {app : AppState} : ReachableNR app → ReachableNR (step app QOp.prev)
  | reset {app : AppState} : ReachableNR app → ReachableNR (step app QOp.reset)

lemma filter_ne_of_lookup_none {m : List (Nat × Answer)} {i : Nat}
    (h : m.lookup i = none) : m.filter (fun p => p.1 != i) = m := by
  induction m with
  | nil => rfl
  | cons hd tl ih =>
    obtain ⟨k, b⟩ := hd
    by_cases hik : i = k
    · subst hik
      simp only [List.lookup, beq_self_eq_true] at h
      exact absurd h (Option.some_ne_none b)
    · have hik' : (i == k) = false := by
        rw [beq_eq_false_iff_ne]
        exact hik
      have htl : tl.lookup i = none := by
        simp only [List.lookup, hik'] at h
        exact h
      have hk : (k != i) = true := by
        rw [bne_iff_ne]
        exact fun hx => hik hx.symm
      simp only [List.filter, hk, ih htl]

lemma find?_of_nodup_ids {qs : List Question} {q : Question}
    (hn : (qs.map Question.id).Nodup) (hm : q ∈ qs) :
    qs.find? (fun x => x.id == q.id) = some q := by
  induction qs with
  | nil => cases hm
  | cons hd tl ih =>
    rw [List.map_cons, List.nodup_cons] at hn
    rcases List.mem_cons.mp hm with rfl | hmtl
    · exact List.find?_cons_of_pos _ (by simp)
    · have hne : (hd.id == q.id) = false := by
        rw [beq_eq_false_iff_ne]
        intro heq
        exact hn.1 (heq ▸ List.mem_map_of_mem Question.id hmtl)
      rw [List.find?_cons_of_neg _ (by simp [hne])]
      exact ih hn.2 hmtl

lemma correctCount_setAnswer {qs : List Question} {m : List (Nat × Answer)}
    {q : Question} {a : Answer}
    (hn : (qs.map Question.id).Nodup) (hq : q ∈ qs)
    (hnone : m.lookup q.id = none) :
    correctCount qs (setAnswer m q.id a) =
      (if isCorrectAnswer q a then 1 else 0) + correctCount qs m := by
  unfold setAnswer correctCount
  rw [filter_ne_of_lookup_none hnone, List.filter_cons]
  have hfind : answerIsCorrect qs (q.id, a) = isCorrectAnswer q a := by
    unfold answerIsCorrect
    rw [find?_of_nodup_ids hn hq]
  cases hic : isCorrectAnswer q a <;> simp [hfind, hic, Nat.add_comm]

lemma mem_of_getQ {qs : List Question} {i : Int} {q : Question}
    (h : getQ qs i = some q) : q ∈ qs := by
  unfold getQ at h
  split at h
  · exact List.get?_mem h
  · cases h

lemma scoreInvariant_aux {app : AppState} (h : ReachableNR app) :
    app.quiz.score = correctCount app.quiz.questions app.quiz.answers ∧
    (app.quiz.questions.map Question.id).Nodup := by
  induction h with
  | init => exact ⟨rfl, by decide⟩
  | @load app r out hrec hsnap hans hnod ih =>
    show (loadQuestions app r out).quiz.score =
      correctCount (loadQuestions app r out).quiz.questions
        (loadQuestions app r out).quiz.answers ∧
      ((loadQuestions app r out).quiz.questions.map Question.id).Nodup
    by_cases hb : (app.hasLoaded && !r) = true
    · unfold loadQuestions
      rw [if_pos hb]
      exact ih
    · have hscore : app.quiz.score = 0 := by
        have h1 := ih.1
        rw [hans] at h1
        simpa [correctCount] using h1
      cases out with
      | success qs =>
        have hnod' : (qs.map Question.id).Nodup := hnod
        unfold loadQuestions
        rw [if_neg hb]
        cases r <;> simp [hsnap, hans, hscore, correctCount, hnod']
      | failure m =>
        unfold loadQuestions
        rw [if_neg hb]
        cases r <;> simpa using ih
  | @answer app a q hrec hget hnone ih =>
    show (answerQuestion app a).quiz.score =
      correctCount (answerQuestion app a).quiz.questions
        (answerQuestion app a).quiz.answers ∧
      ((answerQuestion app a).quiz.questions.map Question.id).Nodup
    unfold answerQuestion
    rw [hget]
    have hqmem : q ∈ app.quiz.questions := mem_of_getQ hget
    refine ⟨?_, ih.2⟩
    show (if isCorrectAnswer q a then app.quiz.score + 1 else app.quiz.score) =
      correctCount app.quiz.questions (setAnswer app.quiz.answers q.id a)
    rw [correctCount_setAnswer ih.2 hqmem hnone]
    have h1 := ih.1
    cases hic : isCorrectAnswer q a <;> simp [hic] <;> omega
  | @next app hrec ih =>
    refine ⟨?_, ?_⟩
    · show (nextQuestion app).quiz.score =
        correctCount (nextQuestion app).quiz.questions
          (nextQuestion app).quiz.answers
      rw [nextQuestion_score, nextQuestion_questions, nextQuestion_answers]
      exact ih.1
    · show ((nextQuestion app).quiz.questions.map Question.id).Nodup
      rw [nextQuestion_questions]
      exact ih.2
  | @prev app hrec ih =>
    refine ⟨?_, ?_⟩
    · show (previousQuestion app).quiz.score =
        correctCount (previousQuestion app).quiz.questions
          (previousQuestion app).quiz.answers
      rw [previousQuestion_score, previousQuestion_questions,
        previousQuestion_answers]
      exact ih.1
    · show ((previousQuestion app).quiz.questions.map Question.id).Nodup
      rw [previousQuestion_questions]
      exact ih.2
  | @reset app hrec ih =>
    refine ⟨by simp [step, resetQuiz, correctCount], ?_⟩
    show ((resetQuiz app).quiz.questions.map Question.id).Nodup
    exact ih.2

/-- C1 counterexample: invoking `answerQuestion` twice for the same current
question breaks the invariant — after the second (correct) call the score is
2 while the answer mapping holds a single correct entry. -/
theorem c1_counterexample :
    (step answeredOnce (QOp.answer (Answer.idx 0))).quiz.score ≠
      correctCount
        (step answeredOnce (QOp.answer (Answer.idx 0))).quiz.questions
        (step answeredOnce (QOp.answer (Answer.idx 0))).quiz.answers := by
  decide

/-- C1 (amended): along every trace of public operations in which loads
admit identifier-distinct question lists while no snapshot or recorded
answer is present, and `answerQuestion` is never invoked for an
already-answered question, the score equals the number of entries of the
answer mapping whose recorded answer is correct for the corresponding
question.  (Repeated `answerQuestion` calls for the same question violate
the invariant, as the counterexample shows.) -/
theorem c1_theorem (app : AppState) (h : ReachableNR app) :
    app.quiz.score = correctCount app.quiz.questions app.quiz.answers :=
  (scoreInvariant_aux h).1

/-- C1 witness: the invariant at the concrete reachable state obtained by
loading one question and answering it once. -/
theorem c1_witness :
    (step (step initApp (QOp.load false (LoadOutcome.success [qS1])))
        (QOp.answer (Answer.idx 0))).quiz.score =
      correctCount
        (step (step initApp (QOp.load false (LoadOutcome.success [qS1])))
            (QOp.answer (Answer.idx 0))).quiz.questions
        (step (step initApp (QOp.load false (LoadOutcome.success [qS1])))
            (QOp.answer (Answer.idx 0))).quiz.answers :=
  c1_theorem _
    (ReachableNR.answer (Answer.idx 0) qS1
      (ReachableNR.load false (LoadOutcome.success [qS1])
        ReachableNR.init rfl rfl
        (show (([qS1].map Question.id)).Nodup by decide))
      (by decide) (by decide))
